import Mathlib

/-
Verification of the caller-side scripts of the TAS-Paths repository
(tests/test.py, tests/workflow.py, tests/workflow_fixed_ki.py,
script_tests/workflow.py) against the engine specification.

The scripts are straight-line Python programs whose only control flow is
early exit on a failed external call.  We embed each script as a function
from an environment (the boolean results of the external engine calls) to
the trace of engine calls the script performs; an early `exit(-1)` simply
ends the trace.  The engine itself (module `taspaths`) is not part of the
source tree; where a claim depends on engine behaviour, the engine
operation is modelled from the specification (see the `Modelled from the
spec:` doc comments below).
-/

namespace TasPaths

/-- An engine call performed by one of the scripts.  Build-phase calls and
`FindPath` record the boolean result the engine returned for that call. -/
inductive Event where
  | load (ok : Bool)
  | setInstrumentSpace
  | setScatteringSenses
  | setTasCalculator
  | startWorkflow
  | finishWorkflow
  | calcConfigSpace (ok : Bool)
  | calcWallContours (ok : Bool)
  | calcLineSegments (ok : Bool)
  | calcVoronoi (ok : Bool)
  | calcWallsIndexTree (ok : Bool)
  | findPath (ok : Bool)
  | setSubdivisionLength
  | getPathVertices
  deriving DecidableEq, Repr

/-- The boolean results returned by the external engine calls a script can
make: up to three `InstrumentSpace.load` attempts, the five build phases,
and `FindPath`'s `ok` flag.  Fields unused by a given script are ignored
by its trace function. -/
structure Env where
  load1Ok : Bool
  load2Ok : Bool
  load3Ok : Bool
  configOk : Bool
  contoursOk : Bool
  segmentsOk : Bool
  voronoiOk : Bool
  indexOk : Bool
  pathOk : Bool
  deriving DecidableEq, Repr

/-- Trace of tests/test.py: a failed load exits; a failed build phase or a
failed path search only prints a message, the script continues. -/
def testPyTrace (env : Env) : List Event :=
  Event.load env.load1Ok ::
  if env.load1Ok then
    [Event.setInstrumentSpace,
     Event.setScatteringSenses,
     Event.calcConfigSpace env.configOk,
     Event.calcWallContours env.contoursOk,
     Event.calcLineSegments env.segmentsOk,
     Event.calcVoronoi env.voronoiOk,
     Event.findPath env.pathOk,
     Event.setSubdivisionLength,
     Event.getPathVertices]
  else []

/-- Trace of tests/workflow.py: every failed external call goes through
`error`, which exits the script. -/
def testsWorkflowTrace (env : Env) : List Event :=
  Event.load env.load1Ok ::
  if !env.load1Ok then [] else
  Event.setInstrumentSpace ::
  Event.setScatteringSenses ::
  Event.calcConfigSpace env.configOk ::
  if !env.configOk then [] else
  Event.calcWallContours env.contoursOk ::
  if !env.contoursOk then [] else
  Event.calcLineSegments env.segmentsOk ::
  if !env.segmentsOk then [] else
  Event.calcVoronoi env.voronoiOk ::
  if !env.voronoiOk then [] else
  Event.findPath env.pathOk ::
  if !env.pathOk then [] else
  [Event.setSubdivisionLength, Event.getPathVertices]

/-- Load attempts of the scripts that loop over several candidate files
(tests/workflow_fixed_ki.py and script_tests/workflow.py): the loop stops
at the first successful load. -/
def loadLoopTrace (env : Env) : List Event :=
  Event.load env.load1Ok ::
  if env.load1Ok then [] else
  Event.load env.load2Ok ::
  if env.load2Ok then [] else
  [Event.load env.load3Ok]

/-- Whether the load loop ended with a successful load. -/
def loadLoopOk (env : Env) : Bool :=
  env.load1Ok || env.load2Ok || env.load3Ok

/-- Trace of tests/workflow_fixed_ki.py: load loop, then the bracketed
build workflow with five phases, then path search; every failed call
exits via `error`. -/
def fixedKiTrace (env : Env) : List Event :=
  loadLoopTrace env ++
  (if !loadLoopOk env then [] else
  Event.setInstrumentSpace ::
  Event.setTasCalculator ::
  Event.startWorkflow ::
  Event.calcConfigSpace env.configOk ::
  if !env.configOk then [] else
  Event.calcWallContours env.contoursOk ::
  if !env.contoursOk then [] else
  Event.calcLineSegments env.segmentsOk ::
  if !env.segmentsOk then [] else
  Event.calcVoronoi env.voronoiOk ::
  if !env.voronoiOk then [] else
  Event.calcWallsIndexTree env.indexOk ::
  if !env.indexOk then [] else
  Event.finishWorkflow ::
  Event.findPath env.pathOk ::
  if !env.pathOk then [] else
  [Event.setSubdivisionLength, Event.getPathVertices])

/-- Trace of script_tests/workflow.py: identical control-flow shape to
tests/workflow_fixed_ki.py (different instrument file and constants). -/
def scriptTestsTrace (env : Env) : List Event :=
  loadLoopTrace env ++
  (if !loadLoopOk env then [] else
  Event.setInstrumentSpace ::
  Event.setTasCalculator ::
  Event.startWorkflow ::
  Event.calcConfigSpace env.configOk ::
  if !env.configOk then [] else
  Event.calcWallContours env.contoursOk ::
  if !env.contoursOk then [] else
  Event.calcLineSegments env.segmentsOk ::
  if !env.segmentsOk then [] else
  Event.calcVoronoi env.voronoiOk ::
  if !env.voronoiOk then [] else
  Event.calcWallsIndexTree env.indexOk ::
  if !env.indexOk then [] else
  Event.finishWorkflow ::
  Event.findPath env.pathOk ::
  if !env.pathOk then [] else
  [Event.setSubdivisionLength, Event.getPathVertices])

/-- Position of each pipeline-relevant call in the required pipeline
order; setup and bracketing calls carry no position. -/
def phaseIdx : Event → Option ℕ
  | .calcConfigSpace _ => some 0
  | .calcWallContours _ => some 1
  | .calcLineSegments _ => some 2
  | .calcVoronoi _ => some 3
  | .calcWallsIndexTree _ => some 4
  | .findPath _ => some 5
  | .setSubdivisionLength => some 6
  | .getPathVertices => some 7
  | _ => none

/-- A build-phase call that returned false. -/
def isFailedBuild : Event → Bool
  | .calcConfigSpace false => true
  | .calcWallContours false => true
  | .calcLineSegments false => true
  | .calcVoronoi false => true
  | .calcWallsIndexTree false => true
  | _ => false

/-- Any pipeline call that depends on earlier phases having succeeded:
a build phase, the path search, or path post-processing. -/
def isPhaseCall (e : Event) : Bool :=
  (phaseIdx e).isSome

/-- A `FindPath` call whose returned path had `ok = false`. -/
def isFailedFind : Event → Bool
  | .findPath false => true
  | _ => false

/-- A path post-processing call. -/
def isPostCall : Event → Bool
  | .setSubdivisionLength => true
  | .getPathVertices => true
  | _ => false

/-- A `FindPath` call (either result). -/
def isFindEv : Event → Bool
  | .findPath _ => true
  | _ => false

/-- A `CalculateConfigSpace` call (either result). -/
def isCalcConfig : Event → Bool
  | .calcConfigSpace _ => true
  | _ => false

/-- A successful `InstrumentSpace.load` call. -/
def isLoadTrue : Event → Bool
  | .load true => true
  | _ => false

/-- A trace stops on build failure when no dependent pipeline call occurs
after a build-phase call that returned false. -/
def haltsOnBuildFailure : List Event → Bool
  | [] => true
  | e :: rest =>
      (!(isFailedBuild e) || rest.all (fun x => !(isPhaseCall x))) &&
      haltsOnBuildFailure rest

/-- A trace stops on path failure when no post-processing call occurs
after a `FindPath` call whose path had `ok = false`. -/
def haltsOnFindFailure : List Event → Bool
  | [] => true
  | e :: rest =>
      (!(isFailedFind e) || rest.all (fun x => !(isPostCall x))) &&
      haltsOnFindFailure rest

/-- A trace respects the load guard when any `CalculateConfigSpace` call
is preceded by a successful load. -/
def loadGuard (l : List Event) : Bool :=
  !(l.any isCalcConfig) ||
  (l.takeWhile (fun e => !(isCalcConfig e))).any isLoadTrue

/-- Whether a trace contains a `FindPath` call. -/
def hasFind (l : List Event) : Bool :=
  l.any isFindEv

/-- Boolean check that a list of naturals is strictly increasing. -/
def strictIncr : List ℕ → Bool
  | [] => true
  | [_] => true
  | a :: b :: rest => decide (a < b) && strictIncr (b :: rest)

/-- Environment where every external call succeeds. -/
def envAll : Env :=
  ⟨true, true, true, true, true, true, true, true, true⟩

/-- Environment where `CalculateConfigSpace` returns false and every other
call succeeds. -/
def envConfigFail : Env :=
  ⟨true, true, true, false, true, true, true, true, true⟩

/-- Environment where `FindPath` returns a path with `ok = false` and
every other call succeeds. -/
def envPathFail : Env :=
  ⟨true, true, true, true, true, true, true, true, false⟩

/-- Environment where the first load attempt fails, the second succeeds,
and every later call succeeds. -/
def envLoad1Fail : Env :=
  ⟨false, true, true, true, true, true, true, true, true⟩

/-- The scattering-senses factor array built by tests/test.py and
tests/workflow.py via `MemManager.NewRealArray(3)`; new array cells start
at zero. -/
def newRealArray (n : ℕ) : List ℚ :=
  List.replicate n 0

/-- `MemManager.SetRealArray(arr, i, v)`. -/
def setRealArray (arr : List ℚ) (i : ℕ) (v : ℚ) : List ℚ :=
  arr.set i v

/-- The senses array of tests/test.py, lines 44-47. -/
def sensesTestPy : List ℚ :=
  setRealArray (setRealArray (setRealArray (newRealArray 3) 0 1) 1 (-1)) 2 1

/-- The senses array of tests/workflow.py, lines 98-101. -/
def sensesWorkflowPy : List ℚ :=
  setRealArray (setRealArray (setRealArray (newRealArray 3) 0 1) 1 (-1)) 2 1

/-
Angular range constants of the scripts.  All angle constants in the
scripts are rational multiples of pi; we represent each angle by its
rational coefficient of pi (so the value 1 stands for pi radians).
-/

/-- The padding factor `angle_padding = 4.` common to the scripts. -/
def anglePadding : ℚ := 4

/-- Axis a2 step of tests/test.py (`1./180.*math.pi`), in units of pi. -/
def testPy_a2_delta : ℚ := 1 / 180

/-- Axis a4 step of tests/test.py (`2./180.*math.pi`), in units of pi. -/
def testPy_a4_delta : ℚ := 2 / 180

/-- Axis a2 range start of tests/test.py, line 58. -/
def testPy_a2_begin : ℚ := 0 - anglePadding * testPy_a2_delta

/-- Axis a2 range end of tests/test.py, line 59. -/
def testPy_a2_end : ℚ := 1 + anglePadding * testPy_a2_delta

/-- Axis a4 range start of tests/test.py, line 60; note that the script
pads with `a2_delta`, not `a4_delta`. -/
def testPy_a4_begin : ℚ := -1 - anglePadding * testPy_a2_delta

/-- Axis a4 range end of tests/test.py, line 61. -/
def testPy_a4_end : ℚ := 1 + anglePadding * testPy_a2_delta

/-- Axis a2 step of tests/workflow.py, line 111. -/
def wfPy_a2_delta : ℚ := 1 / 180

/-- Axis a4 step of tests/workflow.py, line 112. -/
def wfPy_a4_delta : ℚ := 2 / 180

/-- Axis a2 range start of tests/workflow.py, line 113. -/
def wfPy_a2_begin : ℚ := 0 - anglePadding * wfPy_a2_delta

/-- Axis a2 range end of tests/workflow.py, line 114. -/
def wfPy_a2_end : ℚ := 1 + anglePadding * wfPy_a2_delta

/-- Axis a4 range start of tests/workflow.py, line 115; the script pads
with `a2_delta`, not `a4_delta`. -/
def wfPy_a4_begin : ℚ := -1 - anglePadding * wfPy_a2_delta

/-- Axis a4 range end of tests/workflow.py, line 116. -/
def wfPy_a4_end : ℚ := 1 + anglePadding * wfPy_a2_delta

/-- Axis a2 step of script_tests/workflow.py, line 150. -/
def st_a2_delta : ℚ := 1 / 180

/-- Axis a4 step of script_tests/workflow.py, line 151. -/
def st_a4_delta : ℚ := 2 / 180

/-- Axis a2 range start of script_tests/workflow.py, line 152. -/
def st_a2_begin : ℚ := 0 - anglePadding * st_a2_delta

/-- Axis a2 range end of script_tests/workflow.py, line 153. -/
def st_a2_end : ℚ := 1 + anglePadding * st_a2_delta

/-- Axis a4 range start of script_tests/workflow.py, line 154. -/
def st_a4_begin : ℚ := -1 - anglePadding * st_a4_delta

/-- Axis a4 range end of script_tests/workflow.py, line 155. -/
def st_a4_end : ℚ := 1 + anglePadding * st_a4_delta

/-- Axis a6 step of tests/workflow_fixed_ki.py, line 143. -/
def fk_a6_delta : ℚ := 4 / 180

/-- Axis a4 step of tests/workflow_fixed_ki.py, line 144. -/
def fk_a4_delta : ℚ := 4 / 180

/-- Axis a6 range start of tests/workflow_fixed_ki.py, line 145. -/
def fk_a6_begin : ℚ := -1

/-- Axis a6 range end of tests/workflow_fixed_ki.py, line 145. -/
def fk_a6_end : ℚ := 1

/-- Axis a4 range start of tests/workflow_fixed_ki.py, line 146. -/
def fk_a4_begin : ℚ := -1

/-- Axis a4 range end of tests/workflow_fixed_ki.py, line 146. -/
def fk_a4_end : ℚ := 1

/-
Path post-processor.  The engine's `SetSubdivisionLength` and
`GetPathVerticesAsPairs` are not part of the source tree; the resampling
they perform is modelled from the specification below.  Coordinates are
rational angle pairs; the arc length between two consecutive output
points on a straight polyline piece is their Euclidean distance, which we
manipulate through its square to stay in rational arithmetic.
-/

/-- A point in two-dimensional angle space. -/
structure Pt where
  x : ℚ
  y : ℚ
  deriving DecidableEq, Repr

/-- Squared Euclidean distance between two angle-space points. -/
def sqDist (p q : Pt) : ℚ :=
  (q.x - p.x) ^ 2 + (q.y - p.y) ^ 2

/-- Modelled from the spec: number of equal pieces a polyline piece of
squared length `s` is cut into so that each piece is at most `maxStep`
long, the smallest positive count whose squared piece length is within
the bound. -/
def nPieces (maxStep s : ℚ) : ℕ :=
  max 1 (Int.toNat ⌈s / maxStep ^ 2⌉)

/-- Point at parameter `t` on the straight piece from `p` to `q`. -/
def interp (p q : Pt) (t : ℚ) : Pt :=
  ⟨p.x + t * (q.x - p.x), p.y + t * (q.y - p.y)⟩

/-- Modelled from the spec: the resampled points strictly after `p` on
the piece from `p` to `q`, equally spaced and ending exactly at `q`. -/
def subdivSeg (maxStep : ℚ) (p q : Pt) : List Pt :=
  (List.range (nPieces maxStep (sqDist p q))).map
    (fun (k : ℕ) => interp p q (((k : ℚ) + 1) / (nPieces maxStep (sqDist p q) : ℚ)))

/-- Resampled points strictly after `p` along the polyline `p :: rest`. -/
def subdivideFrom (maxStep : ℚ) : Pt → List Pt → List Pt
  | _, [] => []
  | p, q :: rest => subdivSeg maxStep p q ++ subdivideFrom maxStep q rest

/-- Modelled from the spec: `Subdivide(path, maxStep)` of the path
post-processor (the engine operation behind `SetSubdivisionLength` and
`GetPathVerticesAsPairs`, absent from the source tree).  It resamples the
path polyline so consecutive output points are at most `maxStep` apart,
keeping the exact first and last coordinates and all original corner
vertices, with every output point on the original polyline (no
smoothing). -/
def subdivide (maxStep : ℚ) : List Pt → List Pt
  | [] => []
  | p :: rest => p :: subdivideFrom maxStep p rest

/-- A point lying on the straight piece from `p` to `q`. -/
def onSeg (p q v : Pt) : Prop :=
  ∃ t : ℚ, 0 ≤ t ∧ t ≤ 1 ∧ v = interp p q t

/-- A point lying on one of the pieces of a polyline. -/
def OnPolyline (path : List Pt) (v : Pt) : Prop :=
  ∃ pq ∈ path.zip path.tail, onSeg pq.1 pq.2 v

/-
Roadmap graph and path finder.  The engine's `FindPath` and the pipeline
that produces its roadmap are not part of the source tree; they are
modelled from the specification below.  Roadmap edges may be straight or
curved arcs, so each edge carries its arc length and its clearance as
stored data.
-/

/-- The two cost strategies of the path finder
(`PathStrategy_SHORTEST` and `PathStrategy_PENALISE_WALLS`). -/
inductive PathStrategy where
  | shortest
  | penaliseWalls
  deriving DecidableEq, Repr

/-- An undirected roadmap edge between two vertex indices, carrying its
arc length and its clearance (minimum distance to any obstacle along the
edge). -/
structure RoadmapEdge where
  src : ℕ
  dst : ℕ
  len : ℚ
  clearance : ℚ
  deriving DecidableEq, Repr

/-- Modelled from the spec: the RoadmapGraph produced by the Roadmap
Builder, a planar graph whose vertices are angle-space points and whose
edges carry length and clearance weights; immutable after construction. -/
structure RoadmapGraph where
  verts : List Pt
  edges : List RoadmapEdge
  deriving DecidableEq, Repr

/-- Modelled from the spec: edge cost under a strategy; Shortest uses the
edge length, Penalize-walls combines the length with an inverse-clearance
penalty. -/
def edgeCost (strat : PathStrategy) (e : RoadmapEdge) : ℚ :=
  match strat with
  | .shortest => e.len
  | .penaliseWalls => e.len + 1 / e.clearance

/-- Roadmap vertices adjacent to vertex `i`. -/
def neighbors (rm : RoadmapGraph) (i : ℕ) : List ℕ :=
  rm.edges.filterMap (fun e =>
    if e.src = i then some e.dst else if e.dst = i then some e.src else none)

/-- The first stored edge joining vertices `i` and `j`, if any. -/
def findEdge (rm : RoadmapGraph) (i j : ℕ) : Option RoadmapEdge :=
  rm.edges.find? (fun e => (e.src == i && e.dst == j) || (e.src == j && e.dst == i))

/-- Cost of traversing from vertex `i` to adjacent vertex `j`. -/
def stepCost (strat : PathStrategy) (rm : RoadmapGraph) (i j : ℕ) : ℚ :=
  match findEdge rm i j with
  | some e => edgeCost strat e
  | none => 0

/-- Total cost of a route through roadmap vertex indices. -/
def routeCost (strat : PathStrategy) (rm : RoadmapGraph) : List ℕ → ℚ
  | [] => 0
  | [_] => 0
  | i :: j :: rest => stepCost strat rm i j + routeCost strat rm (j :: rest)

/-- All simple routes from `cur` to `target` avoiding `visited`, with a
fuel bound on the number of expansion steps; neighbours are expanded in
the fixed stored edge order, which makes the enumeration order (and hence
tie-breaking) deterministic. -/
def simplePathsAux (rm : RoadmapGraph) (target : ℕ) :
    ℕ → ℕ → List ℕ → List (List ℕ)
  | 0, cur, _ => if cur = target then [[cur]] else []
  | f + 1, cur, visited =>
    if cur = target then [[cur]]
    else
      ((neighbors rm cur).filter (fun nb => !(visited.contains nb))).bind
        (fun nb => (simplePathsAux rm target f nb (nb :: visited)).map
          (fun r2 => cur :: r2))

/-- All simple routes between two roadmap vertices, in a fixed
deterministic visitation order. -/
def allRoutes (rm : RoadmapGraph) (i j : ℕ) : List (List ℕ) :=
  simplePathsAux rm j rm.verts.length i [i]

/-- First element of the list attaining the minimal value of `f`
(earlier elements win ties). -/
def minBy {α : Type} (f : α → ℚ) : List α → Option α
  | [] => none
  | a :: rest =>
    match minBy f rest with
    | none => some a
    | some b => some (if f b < f a then b else a)

/-- Modelled from the spec: the graph search of the path finder, the
minimum-cost route between two snapped vertices under the chosen cost
strategy, ties resolved by the fixed visitation order; `none` when the
vertices lie in disconnected components. -/
def searchRoute (rm : RoadmapGraph) (strat : PathStrategy) (i j : ℕ) :
    Option (List ℕ) :=
  minBy (routeCost strat rm) (allRoutes rm i j)

/-- Position of roadmap vertex `i`. -/
def vertexAt (rm : RoadmapGraph) (i : ℕ) : Pt :=
  rm.verts.getD i ⟨0, 0⟩

/-- Modelled from the spec: snapping an arbitrary angle-space point to
the nearest roadmap vertex (first nearest wins). -/
def snapVertex (rm : RoadmapGraph) (p : Pt) : Option ℕ :=
  minBy (fun i => sqDist p (vertexAt rm i)) (List.range rm.verts.length)

/-- A path finder result: success flag, roadmap route, and the ordered
angle-space coordinates. -/
structure Path where
  ok : Bool
  route : List ℕ
  coords : List Pt
  deriving DecidableEq, Repr

/-- The roadmap search between two optional snapped vertices; fails when
either snap failed. -/
def snappedSearch (rm : RoadmapGraph) (strat : PathStrategy) :
    Option ℕ → Option ℕ → Option (List ℕ)
  | some i, some j => searchRoute rm strat i j
  | _, _ => none

/-- Packaging of an optional found route as a path finder result. -/
def mkResult (rm : RoadmapGraph) : Option (List ℕ) → Path
  | some r => ⟨true, r, r.map (vertexAt rm)⟩
  | none => ⟨false, [], []⟩

/-- Modelled from the spec: `FindPath(start, target, strategy)` of the
path finder, absent from the source tree.  Rejects occupied endpoints
(per the spatial-index query `occupied`), snaps both endpoints to the
nearest roadmap vertex, searches the roadmap under the chosen cost
strategy, and fails when the snapped vertices are disconnected. -/
def FindPath (rm : RoadmapGraph) (occupied : Pt → Bool)
    (start target : Pt) (strat : PathStrategy) : Path :=
  if occupied start || occupied target then ⟨false, [], []⟩
  else mkResult rm
    (snappedSearch rm strat (snapVertex rm start) (snapVertex rm target))

/-- Arc length of a found path, the sum of its route's edge lengths. -/
def pathLength (rm : RoadmapGraph) (p : Path) : ℚ :=
  routeCost .shortest rm p.route

/-- Number of grid steps spanning a half-open angular range. -/
def gridAxisSteps (b e d : ℚ) : ℕ :=
  Int.toNat ⌈(e - b) / d⌉

/-- Modelled from the spec: the Grid Builder's OccupancyGrid, absent from
the source tree; each cell classifies one angle pair by the pairwise
collision test `collide`, cells mutually independent. -/
def computeGrid (collide : ℚ → ℚ → Bool)
    (d2 d4 b2 e2 b4 e4 : ℚ) : List (List Bool) :=
  (List.range (gridAxisSteps b4 e4 d4)).map (fun (k4 : ℕ) =>
    (List.range (gridAxisSteps b2 e2 d2)).map (fun (k2 : ℕ) =>
      collide (b2 + (k2 : ℚ) * d2) (b4 + (k4 : ℚ) * d4)))

/-- A one-vertex roadmap with no edges, used as a concrete instance. -/
def rmSingle : RoadmapGraph :=
  ⟨[⟨0, 0⟩], []⟩

/-- A two-vertex roadmap joined by one unit edge, used as a concrete
instance. -/
def rmPair : RoadmapGraph :=
  ⟨[⟨0, 0⟩, ⟨1, 0⟩], [⟨0, 1, 1, 1⟩]⟩

/-- A line segment of an obstacle-region boundary: two endpoints in
angle space and the region the segment belongs to. -/
structure LineSegment where
  a : Pt
  b : Pt
  region : ℕ
  deriving DecidableEq, Repr

/-- Midpoint of two angle-space points. -/
def midpoint2 (p q : Pt) : Pt :=
  ⟨(p.x + q.x) / 2, (p.y + q.y) / 2⟩

/-- Modelled from the spec: the degenerate-input guard of the Roadmap
Builder; zero-length segments are filtered out and duplicate segments
removed before construction rather than failing. -/
def dedupSegments (segs : List LineSegment) : List LineSegment :=
  (segs.filter (fun s => s.a ≠ s.b)).dedup

/-- Minimum of a list of rationals, zero for the empty list. -/
def minOr : List ℚ → ℚ
  | [] => 0
  | x :: xs => xs.foldl min x

/-- Squared-distance stand-in for the distance from a point to an
obstacle feature: the nearest of the segment's endpoints and midpoint,
kept squared to stay in rational arithmetic. -/
def segSqDist (p : Pt) (s : LineSegment) : ℚ :=
  min (min (sqDist p s.a) (sqDist p s.b)) (sqDist p (midpoint2 s.a s.b))

/-- Squared clearance of a point: its distance to the nearest obstacle
feature among the given segments. -/
def clearanceAt (segs : List LineSegment) (p : Pt) : ℚ :=
  minOr (segs.map (segSqDist p))

/-- Roadmap vertices built from a cleaned segment list: the segment
endpoints in first-occurrence order. -/
def vertsOf (cleaned : List LineSegment) : List Pt :=
  (cleaned.flatMap (fun s => [s.a, s.b])).dedup

/-- Roadmap edges built from a cleaned segment list: one edge per
consecutive vertex pair, carrying its (squared) length and the clearance
at its midpoint. -/
def edgesOf (cleaned : List LineSegment) : List RoadmapEdge :=
  (List.range ((vertsOf cleaned).length - 1)).map (fun (k : ℕ) =>
    ⟨k, k + 1,
     sqDist ((vertsOf cleaned).getD k ⟨0, 0⟩) ((vertsOf cleaned).getD (k + 1) ⟨0, 0⟩),
     clearanceAt cleaned
       (midpoint2 ((vertsOf cleaned).getD k ⟨0, 0⟩)
         ((vertsOf cleaned).getD (k + 1) ⟨0, 0⟩))⟩)

/-- RoadmapGraph construction over an already cleaned segment list. -/
def roadmapOf (cleaned : List LineSegment) : RoadmapGraph :=
  ⟨vertsOf cleaned, edgesOf cleaned⟩

/-- Modelled from the spec: the Roadmap Builder (`CalculateVoronoi`),
absent from the source tree.  Following the spec it first tolerates
degenerate input by filtering zero-length segments and deduplicating,
then builds the RoadmapGraph once from the full cleaned LineSegment set:
vertices come from the segment endpoints in a fixed first-occurrence
order, and every edge stores its length and a clearance to the nearest
obstacle feature.  The equidistant-arc geometry of the generalized
Voronoi diagram needs irrational arithmetic and is abstracted into this
fixed construction; what the determinism property of spec section 8
needs is that the builder is a fixed function of the segment set, which
this is. -/
def buildRoadmap (segs : List LineSegment) : RoadmapGraph :=
  roadmapOf (dedupSegments segs)

/-- A zero-length segment at the origin, used as a concrete instance. -/
def segZero : LineSegment :=
  ⟨⟨0, 0⟩, ⟨0, 0⟩, 0⟩

end TasPaths

namespace TasPaths

/-- The boolean strict-increase check agrees with `List.Chain'` for the
strict order on naturals. -/
theorem strictIncr_iff_chain (l : List ℕ) :
    strictIncr l = true ↔ List.Chain' (· < ·) l := by
  induction l with
  | nil => simp [strictIncr]
  | cons a t ih =>
    cases t with
    | nil => simp [strictIncr]
    | cons b t2 =>
      rw [List.chain'_cons, ← ih]
      simp [strictIncr]

/-- Squared distances are nonnegative. -/
theorem sqDist_nonneg (p q : Pt) : 0 ≤ sqDist p q := by
  unfold sqDist
  positivity

/-- The piece count is always at least one. -/
theorem one_le_nPieces (maxStep s : ℚ) : 1 ≤ nPieces maxStep s :=
  le_max_left _ _

/-- The piece count is positive as a rational. -/
theorem nPieces_cast_pos (maxStep s : ℚ) :
    (0 : ℚ) < (nPieces maxStep s : ℚ) := by
  exact_mod_cast Nat.lt_of_lt_of_le Nat.zero_lt_one (one_le_nPieces maxStep s)

/-- The piece count is large enough: cutting a piece of squared length
`s` into `nPieces maxStep s` equal parts makes each part at most
`maxStep` long. -/
theorem nPieces_spec (maxStep s : ℚ) (hL : 0 < maxStep) (hs : 0 ≤ s) :
    s ≤ (nPieces maxStep s : ℚ) ^ 2 * maxStep ^ 2 := by
  have hL2 : (0 : ℚ) < maxStep ^ 2 := by positivity
  have hr0 : (0 : ℚ) ≤ s / maxStep ^ 2 := by positivity
  have h1 : s / maxStep ^ 2 ≤ (⌈s / maxStep ^ 2⌉ : ℚ) := Int.le_ceil _
  have h2 : ((Int.toNat ⌈s / maxStep ^ 2⌉ : ℕ) : ℚ) = ((⌈s / maxStep ^ 2⌉ : ℤ) : ℚ) := by
    exact_mod_cast Int.toNat_of_nonneg (Int.ceil_nonneg hr0)
  have h3 : ((Int.toNat ⌈s / maxStep ^ 2⌉ : ℕ) : ℚ) ≤ (nPieces maxStep s : ℚ) := by
    exact_mod_cast Nat.le_max_right 1 _
  have hn : s / maxStep ^ 2 ≤ (nPieces maxStep s : ℚ) := by
    calc s / maxStep ^ 2 ≤ (⌈s / maxStep ^ 2⌉ : ℚ) := h1
      _ = ((Int.toNat ⌈s / maxStep ^ 2⌉ : ℕ) : ℚ) := h2.symm
      _ ≤ (nPieces maxStep s : ℚ) := h3
  have hone : (1 : ℚ) ≤ (nPieces maxStep s : ℚ) := by
    exact_mod_cast one_le_nPieces maxStep s
  have hs' : s ≤ (nPieces maxStep s : ℚ) * maxStep ^ 2 := (div_le_iff hL2).mp hn
  nlinarith [hs', hone, hL2, sq_nonneg ((nPieces maxStep s : ℚ) - 1)]

/-- Interpolation at parameter zero is the first endpoint. -/
theorem interp_zero (p q : Pt) : interp p q 0 = p := by
  cases p
  simp [interp]

/-- Interpolation at parameter one is the second endpoint. -/
theorem interp_one (p q : Pt) : interp p q 1 = q := by
  cases q
  simp only [interp, Pt.mk.injEq]
  exact ⟨by ring, by ring⟩

/-- Squared distance between consecutive interpolation points at spacing
`1 / n`. -/
theorem sqDist_interp_step (p q : Pt) (n : ℕ) (hn : (n : ℚ) ≠ 0) (a : ℕ) :
    sqDist (interp p q ((a : ℚ) / (n : ℚ))) (interp p q (((a : ℚ) + 1) / (n : ℚ))) =
      sqDist p q / (n : ℚ) ^ 2 := by
  simp only [sqDist, interp]
  field_simp
  ring

/-- The resampled piece list is never empty. -/
theorem subdivSeg_ne_nil (maxStep : ℚ) (p q : Pt) :
    subdivSeg maxStep p q ≠ [] := by
  have h := one_le_nPieces maxStep (sqDist p q)
  simp only [subdivSeg, ne_eq, List.map_eq_nil_iff, List.range_eq_nil]
  omega

/-- The resampled piece list ends exactly at the second endpoint. -/
theorem subdivSeg_getLast (maxStep : ℚ) (p q : Pt) :
    (subdivSeg maxStep p q).getLast? = some q := by
  obtain ⟨m, hm⟩ : ∃ m, nPieces maxStep (sqDist p q) = m + 1 :=
    ⟨nPieces maxStep (sqDist p q) - 1, by
      have := one_le_nPieces maxStep (sqDist p q); omega⟩
  have hne : ((m : ℚ) + 1) ≠ 0 := by positivity
  rw [subdivSeg, hm, List.range_succ, List.map_append]
  simp only [List.map_cons, List.map_nil, List.getLast?_concat]
  have hc : ((m + 1 : ℕ) : ℚ) = (m : ℚ) + 1 := by push_cast; ring
  rw [hc, div_self hne, interp_one]

/-- Each consecutive pair along `p` followed by the resampled piece list
is at most `maxStep` apart. -/
theorem chain_subdivSeg (maxStep : ℚ) (hL : 0 < maxStep) (p q : Pt) :
    List.Chain' (fun u v => sqDist u v ≤ maxStep ^ 2) (p :: subdivSeg maxStep p q) := by
  have hs := sqDist_nonneg p q
  have hn0 : (0 : ℚ) < (nPieces maxStep (sqDist p q) : ℚ) :=
    nPieces_cast_pos maxStep (sqDist p q)
  have hstep : sqDist p q / (nPieces maxStep (sqDist p q) : ℚ) ^ 2 ≤ maxStep ^ 2 := by
    rw [div_le_iff (by positivity)]
    have h := nPieces_spec maxStep (sqDist p q) hL hs
    linarith [h]
  rw [List.chain'_iff_get]
  intro i hi
  simp only [subdivSeg, List.length_cons, List.length_map, List.length_range] at hi
  match i with
  | 0 =>
    show sqDist p _ ≤ maxStep ^ 2
    have h0 : (List.range (nPieces maxStep (sqDist p q))).get
        ⟨0, by simpa [subdivSeg] using hi⟩ = 0 := List.get_range _ _
    simp only [subdivSeg, List.get_cons_succ, List.get_map, h0, List.get_cons_zero]
    have := sqDist_interp_step p q (nPieces maxStep (sqDist p q)) (ne_of_gt hn0) 0
    rw [Nat.cast_zero, zero_div, interp_zero] at this
    rw [show ((0 : ℕ) : ℚ) + 1 = (0 : ℚ) + 1 by norm_num]
    rw [this]
    exact hstep
  | j + 1 =>
    simp only [subdivSeg, List.get_cons_succ, List.get_map, List.get_range]
    have hstep2 := sqDist_interp_step p q (nPieces maxStep (sqDist p q)) (ne_of_gt hn0) (j + 1)
    push_cast
    push_cast at hstep2
    rw [hstep2]
    exact hstep

/-- Consecutive resampled points along a whole polyline are at most
`maxStep` apart. -/
theorem chain_subdivideFrom (maxStep : ℚ) (hL : 0 < maxStep) :
    ∀ (rest : List Pt) (p : Pt),
      List.Chain' (fun u v => sqDist u v ≤ maxStep ^ 2)
        (p :: subdivideFrom maxStep p rest) := by
  intro rest
  induction rest with
  | nil => intro p; simp [subdivideFrom]
  | cons q rs ih =>
    intro p
    have hq := ih q
    rw [List.chain'_cons'] at hq
    show List.Chain' _ (p :: (subdivSeg maxStep p q ++ subdivideFrom maxStep q rs))
    rw [← List.cons_append, List.chain'_append]
    refine ⟨chain_subdivSeg maxStep hL p q, hq.2, ?_⟩
    intro x hx y hy
    rw [show p :: subdivSeg maxStep p q = [p] ++ subdivSeg maxStep p q from rfl,
      List.getLast?_append_of_ne_nil _ (subdivSeg_ne_nil maxStep p q),
      subdivSeg_getLast maxStep p q] at hx
    rw [Option.mem_def, Option.some_inj] at hx
    subst hx
    exact hq.1 y hy

/-- Resampling a nonempty tail is nonempty. -/
theorem subdivideFrom_ne_nil (maxStep : ℚ) (p : Pt) (rest : List Pt)
    (h : rest ≠ []) : subdivideFrom maxStep p rest ≠ [] := by
  cases rest with
  | nil => exact absurd rfl h
  | cons q rs =>
    show subdivSeg maxStep p q ++ subdivideFrom maxStep q rs ≠ []
    simp [subdivSeg_ne_nil maxStep p q]

/-- The resampled polyline ends exactly at the original last vertex. -/
theorem getLast_subdivideFrom (maxStep : ℚ) :
    ∀ (rest : List Pt) (p : Pt), rest ≠ [] →
      (p :: subdivideFrom maxStep p rest).getLast? = rest.getLast? := by
  intro rest
  induction rest with
  | nil => intro p h; exact absurd rfl h
  | cons q rs ih =>
    intro p _
    show (p :: (subdivSeg maxStep p q ++ subdivideFrom maxStep q rs)).getLast? = _
    by_cases hrs : rs = []
    · subst hrs
      simp only [subdivideFrom, List.append_nil]
      rw [show p :: subdivSeg maxStep p q = [p] ++ subdivSeg maxStep p q from rfl,
        List.getLast?_append_of_ne_nil _ (subdivSeg_ne_nil maxStep p q),
        subdivSeg_getLast maxStep p q]
      rfl
    · have hne : subdivideFrom maxStep q rs ≠ [] :=
        subdivideFrom_ne_nil maxStep q rs hrs
      rw [show p :: (subdivSeg maxStep p q ++ subdivideFrom maxStep q rs) =
            (p :: subdivSeg maxStep p q) ++ subdivideFrom maxStep q rs from rfl,
        List.getLast?_append_of_ne_nil _ hne]
      have hq := ih q hrs
      rw [show q :: subdivideFrom maxStep q rs =
            [q] ++ subdivideFrom maxStep q rs from rfl,
        List.getLast?_append_of_ne_nil _ hne] at hq
      rw [hq, show (q :: rs : List Pt) = [q] ++ rs from rfl,
        List.getLast?_append_of_ne_nil _ hrs]

/-- The original polyline vertices survive resampling, in order. -/
theorem sublist_subdivideFrom (maxStep : ℚ) :
    ∀ (rest : List Pt) (p : Pt), rest.Sublist (subdivideFrom maxStep p rest) := by
  intro rest
  induction rest with
  | nil => intro p; simp
  | cons q rs ih =>
    intro p
    show (q :: rs).Sublist (subdivSeg maxStep p q ++ subdivideFrom maxStep q rs)
    have h1 : (q :: rs).Sublist (q :: subdivideFrom maxStep q rs) :=
      List.Sublist.cons₂ q (ih q)
    have h2 : (q :: subdivideFrom maxStep q rs).Sublist
        ((subdivSeg maxStep p q).dropLast ++ (q :: subdivideFrom maxStep q rs)) :=
      List.sublist_append_right _ _
    have hlast : (subdivSeg maxStep p q).getLast (subdivSeg_ne_nil maxStep p q) = q := by
      have h := List.getLast?_eq_getLast_of_ne_nil (subdivSeg_ne_nil maxStep p q)
      rw [subdivSeg_getLast maxStep p q] at h
      exact (Option.some_inj.mp h).symm
    have hdecomp : (subdivSeg maxStep p q).dropLast ++ [q] = subdivSeg maxStep p q := by
      conv_rhs => rw [← List.dropLast_append_getLast (subdivSeg_ne_nil maxStep p q)]
      rw [hlast]
    have heq : (subdivSeg maxStep p q).dropLast ++ (q :: subdivideFrom maxStep q rs) =
        subdivSeg maxStep p q ++ subdivideFrom maxStep q rs := by
      conv_rhs => rw [← hdecomp]
      rw [List.append_assoc]
      rfl
    exact heq ▸ (h1.trans h2)

/-- Every resampled point lies on the piece it was produced from. -/
theorem mem_subdivSeg_onSeg (maxStep : ℚ) (p q v : Pt)
    (hv : v ∈ subdivSeg maxStep p q) : onSeg p q v := by
  simp only [subdivSeg, List.mem_map, List.mem_range] at hv
  obtain ⟨k, hk, hv⟩ := hv
  have hn0 : (0 : ℚ) < (nPieces maxStep (sqDist p q) : ℚ) :=
    nPieces_cast_pos maxStep (sqDist p q)
  refine ⟨((k : ℚ) + 1) / (nPieces maxStep (sqDist p q) : ℚ), ?_, ?_, hv.symm⟩
  · positivity
  · rw [div_le_one hn0]
    exact_mod_cast hk

/-- Every resampled point lies on some piece of the original polyline. -/
theorem mem_subdivideFrom_onPolyline (maxStep : ℚ) :
    ∀ (rest : List Pt) (p v : Pt), v ∈ subdivideFrom maxStep p rest →
      ∃ a b, (a, b) ∈ (p :: rest).zip rest ∧ onSeg a b v := by
  intro rest
  induction rest with
  | nil => intro p v hv; simp [subdivideFrom] at hv
  | cons q rs ih =>
    intro p v hv
    rw [show subdivideFrom maxStep p (q :: rs) =
          subdivSeg maxStep p q ++ subdivideFrom maxStep q rs from rfl,
      List.mem_append] at hv
    rcases hv with hv | hv
    · exact ⟨p, q, by simp [List.zip_cons_cons], mem_subdivSeg_onSeg maxStep p q v hv⟩
    · obtain ⟨a, b, hab, hseg⟩ := ih q v hv
      exact ⟨a, b, by simp [List.zip_cons_cons]; right; simpa using hab, hseg⟩

/-- C5: the modelled path post-processor keeps consecutive output points
at most `maxStep` apart (so in particular every pair except possibly the
final one is within the bound), returns the exact original first and last
coordinates, keeps all original corner vertices in order, and applies no
smoothing: every output point lies on the original polyline. -/
theorem c5_subdivision_bound (maxStep : ℚ) (hL : 0 < maxStep)
    (path : List Pt) (hne : path ≠ []) :
    List.Chain' (fun u v => sqDist u v ≤ maxStep ^ 2) (subdivide maxStep path) ∧
    (subdivide maxStep path).head? = path.head? ∧
    (subdivide maxStep path).getLast? = path.getLast? ∧
    path.Sublist (subdivide maxStep path) ∧
    (∀ v ∈ subdivide maxStep path, v ∈ path ∨ OnPolyline path v) := by
  cases path with
  | nil => exact absurd rfl hne
  | cons p rest =>
    refine ⟨chain_subdivideFrom maxStep hL rest p, rfl, ?_, ?_, ?_⟩
    · by_cases hrest : rest = []
      · subst hrest; simp [subdivide, subdivideFrom]
      · show (p :: subdivideFrom maxStep p rest).getLast? = (p :: rest).getLast?
        rw [getLast_subdivideFrom maxStep rest p hrest,
          show (p :: rest : List Pt) = [p] ++ rest from rfl,
          List.getLast?_append_of_ne_nil _ hrest]
    · exact List.Sublist.cons₂ p (sublist_subdivideFrom maxStep rest p)
    · intro v hv
      rcases List.mem_cons.mp hv with hv | hv
      · exact Or.inl (by simp [hv])
      · obtain ⟨a, b, hab, hseg⟩ :=
          mem_subdivideFrom_onPolyline maxStep rest p v hv
        exact Or.inr ⟨(a, b), by simpa using hab, hseg⟩

/-- C5 witness: the piece from the origin to the point three units up,
resampled at step two, satisfies the subdivision contract. -/
theorem c5_subdivision_bound_witness :
    (0 : ℚ) < 2 ∧ ([⟨0, 0⟩, ⟨0, 3⟩] : List Pt) ≠ [] ∧
    (List.Chain' (fun u v => sqDist u v ≤ (2 : ℚ) ^ 2)
      (subdivide 2 [⟨0, 0⟩, ⟨0, 3⟩]) ∧
     (subdivide 2 [⟨0, 0⟩, ⟨0, 3⟩]).head? = ([⟨0, 0⟩, ⟨0, 3⟩] : List Pt).head? ∧
     (subdivide 2 [⟨0, 0⟩, ⟨0, 3⟩]).getLast? = ([⟨0, 0⟩, ⟨0, 3⟩] : List Pt).getLast? ∧
     ([⟨0, 0⟩, ⟨0, 3⟩] : List Pt).Sublist (subdivide 2 [⟨0, 0⟩, ⟨0, 3⟩]) ∧
     (∀ v ∈ subdivide 2 [⟨0, 0⟩, ⟨0, 3⟩],
        v ∈ ([⟨0, 0⟩, ⟨0, 3⟩] : List Pt) ∨ OnPolyline [⟨0, 0⟩, ⟨0, 3⟩] v)) :=
  ⟨by norm_num, by simp,
   c5_subdivision_bound 2 (by norm_num) [⟨0, 0⟩, ⟨0, 3⟩] (by simp)⟩

/-- The minimum search fails exactly on the empty list. -/
theorem minBy_eq_none {α : Type} (f : α → ℚ) (l : List α) :
    minBy f l = none ↔ l = [] := by
  cases l with
  | nil => simp [minBy]
  | cons a rest =>
    cases hmb : minBy f rest <;> simp [minBy, hmb]

/-- The minimum search returns an element of the list. -/
theorem minBy_mem {α : Type} (f : α → ℚ) :
    ∀ (l : List α) (a : α), minBy f l = some a → a ∈ l := by
  intro l
  induction l with
  | nil => intro a h; simp [minBy] at h
  | cons x rest ih =>
    intro a h
    simp only [minBy] at h
    cases hmb : minBy f rest with
    | none =>
      rw [hmb] at h
      simp only [Option.some_inj] at h
      exact h ▸ List.mem_cons_self x rest
    | some b =>
      rw [hmb] at h
      simp only [Option.some_inj] at h
      by_cases hfb : f b < f x
      · rw [if_pos hfb] at h
        exact h ▸ List.mem_cons_of_mem x (ih b hmb)
      · rw [if_neg hfb] at h
        exact h ▸ List.mem_cons_self x rest

/-- The minimum search returns a minimal-value element. -/
theorem minBy_le {α : Type} (f : α → ℚ) :
    ∀ (l : List α) (a : α), minBy f l = some a → ∀ b ∈ l, f a ≤ f b := by
  intro l
  induction l with
  | nil => intro a h; simp [minBy] at h
  | cons x rest ih =>
    intro a h b hb
    simp only [minBy] at h
    cases hmb : minBy f rest with
    | none =>
      rw [hmb] at h
      simp only [Option.some_inj] at h
      have hrest : rest = [] := (minBy_eq_none f rest).mp hmb
      subst hrest
      rcases List.mem_cons.mp hb with hb | hb
      · exact h ▸ hb ▸ le_refl _
      · simp at hb
    | some c =>
      rw [hmb] at h
      simp only [Option.some_inj] at h
      have hih := ih c hmb
      by_cases hfc : f c < f x
      · rw [if_pos hfc] at h
        subst h
        rcases List.mem_cons.mp hb with hb | hb
        · exact hb ▸ le_of_lt hfc
        · exact hih b hb
      · rw [if_neg hfc] at h
        subst h
        rcases List.mem_cons.mp hb with hb | hb
        · exact hb ▸ le_refl _
        · exact le_trans (not_lt.mp hfc) (hih b hb)

/-- The minimum search returns the first minimal-value element: every
strictly earlier list position carries a strictly larger value. -/
theorem minBy_first {α : Type} (f : α → ℚ) :
    ∀ (l : List α) (a : α), minBy f l = some a →
      ∃ k, k < l.length ∧ l.getD k a = a ∧
        ∀ m, m < k → f a < f (l.getD m a) := by
  intro l
  induction l with
  | nil => intro a h; simp [minBy] at h
  | cons x rest ih =>
    intro a h
    simp only [minBy] at h
    cases hmb : minBy f rest with
    | none =>
      rw [hmb] at h
      simp only [Option.some_inj] at h
      exact ⟨0, by simp, by simp [h], fun m hm => absurd hm (Nat.not_lt_zero m)⟩
    | some c =>
      rw [hmb] at h
      simp only [Option.some_inj] at h
      by_cases hfc : f c < f x
      · rw [if_pos hfc] at h
        subst h
        obtain ⟨k, hk, hget, hmin⟩ := ih c hmb
        refine ⟨k + 1, by simpa using hk, by simpa using hget, ?_⟩
        intro m hm
        match m with
        | 0 => simpa using hfc
        | m' + 1 =>
          have : m' < k := by omega
          simpa using hmin m' this
      · rw [if_neg hfc] at h
        subst h
        exact ⟨0, by simp, by simp, fun m hm => absurd hm (Nat.not_lt_zero m)⟩

/-- Snapping succeeds on a roadmap with at least one vertex. -/
theorem snapVertex_isSome (rm : RoadmapGraph) (p : Pt) (h : rm.verts ≠ []) :
    ∃ i, snapVertex rm p = some i := by
  cases hmb : snapVertex rm p with
  | some i => exact ⟨i, rfl⟩
  | none =>
    rw [snapVertex, minBy_eq_none, List.range_eq_nil] at hmb
    exact absurd (List.length_eq_zero.mp hmb) h

/-- The route enumeration from a vertex to itself is the single
degenerate route, whatever the fuel. -/
theorem simplePathsAux_self (rm : RoadmapGraph) (t fuel : ℕ)
    (visited : List ℕ) : simplePathsAux rm t fuel t visited = [[t]] := by
  cases fuel <;> simp [simplePathsAux]

/-- All routes from a vertex to itself reduce to the degenerate route. -/
theorem allRoutes_self (rm : RoadmapGraph) (i : ℕ) :
    allRoutes rm i i = [[i]] :=
  simplePathsAux_self rm i rm.verts.length [i]

/-- Searching from a vertex to itself returns the degenerate route. -/
theorem searchRoute_self (rm : RoadmapGraph) (strat : PathStrategy) (i : ℕ) :
    searchRoute rm strat i i = some [i] := by
  rw [searchRoute, allRoutes_self]
  simp [minBy]

/-- C6: on a roadmap with at least one vertex, `FindPath` with start
equal to target at a free-space point returns a path with `ok = true`
whose coordinate sequence is a single point, under either strategy. -/
theorem c6_degenerate_path (rm : RoadmapGraph) (occupied : Pt → Bool)
    (p : Pt) (strat : PathStrategy) (hfree : occupied p = false)
    (hne : rm.verts ≠ []) :
    (FindPath rm occupied p p strat).ok = true ∧
    (FindPath rm occupied p p strat).coords.length = 1 := by
  obtain ⟨i, hi⟩ := snapVertex_isSome rm p hne
  simp [FindPath, hfree, hi, snappedSearch, searchRoute_self, mkResult]

/-- C6 witness: on the one-vertex roadmap with nothing occupied, the
degenerate query at the origin succeeds with a single-point path. -/
theorem c6_degenerate_path_witness :
    (fun (_ : Pt) => false) (⟨0, 0⟩ : Pt) = false ∧
    rmSingle.verts ≠ [] ∧
    ((FindPath rmSingle (fun _ => false) ⟨0, 0⟩ ⟨0, 0⟩ PathStrategy.shortest).ok = true ∧
     (FindPath rmSingle (fun _ => false) ⟨0, 0⟩ ⟨0, 0⟩ PathStrategy.shortest).coords.length = 1) :=
  ⟨rfl, by simp [rmSingle],
   c6_degenerate_path rmSingle (fun _ => false) ⟨0, 0⟩ PathStrategy.shortest rfl
     (by simp [rmSingle])⟩

/-- C7: when both strategies return a successful path for the same
endpoints over the same roadmap, the Shortest-strategy path is no longer
than the Penalize-walls-strategy path. -/
theorem c7_cost_ordering (rm : RoadmapGraph) (occupied : Pt → Bool)
    (s t : Pt)
    (hS : (FindPath rm occupied s t PathStrategy.shortest).ok = true)
    (hP : (FindPath rm occupied s t PathStrategy.penaliseWalls).ok = true) :
    pathLength rm (FindPath rm occupied s t PathStrategy.shortest) ≤
      pathLength rm (FindPath rm occupied s t PathStrategy.penaliseWalls) := by
  by_cases hocc : (occupied s || occupied t) = true
  · unfold FindPath at hS
    rw [if_pos hocc] at hS
    simp at hS
  · unfold FindPath at hS hP ⊢
    rw [if_neg hocc] at hS
    rw [if_neg hocc] at hP
    rw [if_neg hocc, if_neg hocc]
    cases hs1 : snapVertex rm s with
    | none =>
      cases hs2 : snapVertex rm t with
      | none =>
        rw [hs1, hs2] at hS
        simp [snappedSearch, mkResult] at hS
      | some j =>
        rw [hs1, hs2] at hS
        simp [snappedSearch, mkResult] at hS
    | some i =>
      cases hs2 : snapVertex rm t with
      | none =>
        rw [hs1, hs2] at hS
        simp [snappedSearch, mkResult] at hS
      | some j =>
        rw [hs1, hs2] at hS hP
        rw [show snappedSearch rm PathStrategy.shortest (some i) (some j) =
              searchRoute rm PathStrategy.shortest i j from rfl] at hS ⊢
        rw [show snappedSearch rm PathStrategy.penaliseWalls (some i) (some j) =
              searchRoute rm PathStrategy.penaliseWalls i j from rfl] at hP ⊢
        cases hrS : searchRoute rm PathStrategy.shortest i j with
        | none =>
          rw [hrS] at hS
          simp [mkResult] at hS
        | some rS =>
          cases hrP : searchRoute rm PathStrategy.penaliseWalls i j with
          | none =>
            rw [hrP] at hP
            simp [mkResult] at hP
          | some rP =>
            have hmem : rP ∈ allRoutes rm i j :=
              minBy_mem (routeCost PathStrategy.penaliseWalls rm) _ rP hrP
            have hle :=
              minBy_le (routeCost PathStrategy.shortest rm) _ rS hrS rP hmem
            simpa [pathLength, mkResult] using hle

/-- C7 witness: on the one-vertex roadmap with nothing occupied, both
strategies succeed for the query at the vertex, and the
shortest-strategy length is within the penalize-walls-strategy
length. -/
theorem c7_cost_ordering_witness :
    (FindPath rmSingle (fun _ => false) ⟨0, 0⟩ ⟨0, 0⟩ PathStrategy.shortest).ok = true ∧
    (FindPath rmSingle (fun _ => false) ⟨0, 0⟩ ⟨0, 0⟩ PathStrategy.penaliseWalls).ok = true ∧
    pathLength rmSingle (FindPath rmSingle (fun _ => false) ⟨0, 0⟩ ⟨0, 0⟩ PathStrategy.shortest) ≤
      pathLength rmSingle (FindPath rmSingle (fun _ => false) ⟨0, 0⟩ ⟨0, 0⟩ PathStrategy.penaliseWalls) :=
  ⟨by rfl, by rfl,
   c7_cost_ordering rmSingle (fun _ => false) ⟨0, 0⟩ ⟨0, 0⟩ (by rfl) (by rfl)⟩

/-- C8: the modelled build pipeline and path finder are functions of
their inputs, so two runs with identical geometry and grid parameters
yield an identical OccupancyGrid and an identical RoadmapGraph, and two
queries with identical inputs yield identical paths; the roadmap builder
moreover tolerates degenerate input, so a zero-length or duplicate
segment changes nothing; and the search's tie-breaking is a fixed
first-minimum rule over the deterministic route visitation order: the
returned route is minimal-cost, and every route visited strictly earlier
costs strictly more, so equal-cost ties go to the earlier route. -/
theorem c8_determinism :
    (∀ (collide : ℚ → ℚ → Bool) (d2 d4 b2 e2 b4 e4 : ℚ),
      computeGrid collide d2 d4 b2 e2 b4 e4 = computeGrid collide d2 d4 b2 e2 b4 e4) ∧
    (∀ segs : List LineSegment, buildRoadmap segs = buildRoadmap segs) ∧
    (∀ (s : LineSegment) (segs : List LineSegment), s.a = s.b ∨ s ∈ segs →
      buildRoadmap (s :: segs) = buildRoadmap segs) ∧
    (∀ (rm : RoadmapGraph) (occupied : Pt → Bool) (s t : Pt) (strat : PathStrategy),
      FindPath rm occupied s t strat = FindPath rm occupied s t strat) ∧
    (∀ (rm : RoadmapGraph) (strat : PathStrategy) (i j : ℕ) (r : List ℕ),
      searchRoute rm strat i j = some r →
        r ∈ allRoutes rm i j ∧
        (∀ r2 ∈ allRoutes rm i j,
          routeCost strat rm r ≤ routeCost strat rm r2) ∧
        ∃ k, k < (allRoutes rm i j).length ∧
          (allRoutes rm i j).getD k r = r ∧
          ∀ m, m < k →
            routeCost strat rm r < routeCost strat rm ((allRoutes rm i j).getD m r)) := by
  refine ⟨fun _ _ _ _ _ _ _ => rfl, fun _ => rfl, ?_, fun _ _ _ _ _ => rfl, ?_⟩
  · intro s segs hs
    unfold buildRoadmap
    congr 1
    unfold dedupSegments
    rcases hs with hs | hs
    · rw [List.filter_cons]
      simp [hs]
    · by_cases hzl : s.a = s.b
      · rw [List.filter_cons]
        simp [hzl]
      · rw [List.filter_cons]
        have hc : (decide ¬s.a = s.b) = true := by simp [hzl]
        rw [hc, if_pos rfl]
        exact List.dedup_cons_of_mem (List.mem_filter.mpr ⟨hs, by simpa using hc⟩)
  · intro rm strat i j r h
    exact ⟨minBy_mem (routeCost strat rm) _ r h,
      minBy_le (routeCost strat rm) _ r h,
      minBy_first (routeCost strat rm) _ r h⟩

/-- C8 witness: inserting a zero-length segment leaves the built roadmap
unchanged, and on the two-vertex roadmap the shortest-strategy search
between the two vertices returns the unique route, which is minimal and
first in visitation order. -/
theorem c8_determinism_witness :
    (segZero.a = segZero.b ∨ segZero ∈ ([] : List LineSegment)) ∧
    buildRoadmap [segZero] = buildRoadmap [] ∧
    searchRoute rmPair PathStrategy.shortest 0 1 = some [0, 1] ∧
    ([0, 1] ∈ allRoutes rmPair 0 1 ∧
     (∀ r2 ∈ allRoutes rmPair 0 1,
       routeCost PathStrategy.shortest rmPair [0, 1] ≤
         routeCost PathStrategy.shortest rmPair r2) ∧
     ∃ k, k < (allRoutes rmPair 0 1).length ∧
       (allRoutes rmPair 0 1).getD k [0, 1] = [0, 1] ∧
       ∀ m, m < k →
         routeCost PathStrategy.shortest rmPair [0, 1] <
           routeCost PathStrategy.shortest rmPair ((allRoutes rmPair 0 1).getD m [0, 1])) :=
  ⟨Or.inl rfl,
   c8_determinism.2.2.1 segZero [] (Or.inl rfl),
   by rfl,
   c8_determinism.2.2.2.2 rmPair PathStrategy.shortest 0 1 [0, 1] (by rfl)⟩

/-- C1 counterexample: in tests/test.py a `CalculateConfigSpace` call that
returns false is followed by calls to every later phase anyway, so the
claim that a false return always stops the pipeline is false at the
environment `envConfigFail`. -/
theorem c1_counterexample :
    isFailedBuild (Event.calcConfigSpace false) = true ∧
    Event.calcConfigSpace false ∈ testPyTrace envConfigFail ∧
    Event.calcWallContours true ∈ testPyTrace envConfigFail ∧
    Event.calcVoronoi true ∈ testPyTrace envConfigFail ∧
    haltsOnBuildFailure (testPyTrace envConfigFail) = false := by
  decide

/-- C1 amended: in tests/workflow.py, tests/workflow_fixed_ki.py and
script_tests/workflow.py a false return from any build phase exits the
script before any dependent later phase call; tests/test.py only prints a
message and continues. -/
theorem c1_amended (env : Env) :
    haltsOnBuildFailure (testsWorkflowTrace env) = true ∧
    haltsOnBuildFailure (fixedKiTrace env) = true ∧
    haltsOnBuildFailure (scriptTestsTrace env) = true := by
  rcases env with ⟨a, b, c, d, e, f, g, h, i⟩
  revert a b c d e f g h i
  decide

/-- C3 counterexample: in tests/test.py a `FindPath` call whose path has
`ok = false` is still followed by `SetSubdivisionLength` and
`GetPathVerticesAsPairs` on that path. -/
theorem c3_counterexample :
    Event.findPath false ∈ testPyTrace envPathFail ∧
    Event.setSubdivisionLength ∈ testPyTrace envPathFail ∧
    Event.getPathVertices ∈ testPyTrace envPathFail ∧
    haltsOnFindFailure (testPyTrace envPathFail) = false := by
  decide

/-- C3 amended: in tests/workflow.py, tests/workflow_fixed_ki.py and
script_tests/workflow.py a `FindPath` result with `ok = false` exits the
script before subdivision and vertex extraction; tests/test.py proceeds
to both on the failed path. -/
theorem c3_amended (env : Env) :
    haltsOnFindFailure (testsWorkflowTrace env) = true ∧
    haltsOnFindFailure (fixedKiTrace env) = true ∧
    haltsOnFindFailure (scriptTestsTrace env) = true := by
  rcases env with ⟨a, b, c, d, e, f, g, h, i⟩
  revert a b c d e f g h i
  decide

/-- C2: in every script the pipeline-relevant calls occur in strictly
increasing pipeline order (config space, wall contours, line segments,
Voronoi, walls index tree, path search, subdivision, vertex extraction),
so each build phase runs at most once and in the required order; and
whenever `FindPath` is reached, the trace up to it is exactly the full
build pipeline of that script, so the path search runs only after every
build-phase call of the script has been made (and, in the scripts that
stop on failure, has succeeded). -/
theorem c2_pipeline_order (env : Env) :
    (List.Chain' (· < ·) ((testPyTrace env).filterMap phaseIdx) ∧
     List.Chain' (· < ·) ((testsWorkflowTrace env).filterMap phaseIdx) ∧
     List.Chain' (· < ·) ((fixedKiTrace env).filterMap phaseIdx) ∧
     List.Chain' (· < ·) ((scriptTestsTrace env).filterMap phaseIdx)) ∧
    (hasFind (testPyTrace env) = true →
      testPyTrace env =
        [Event.load true, Event.setInstrumentSpace, Event.setScatteringSenses,
         Event.calcConfigSpace env.configOk, Event.calcWallContours env.contoursOk,
         Event.calcLineSegments env.segmentsOk, Event.calcVoronoi env.voronoiOk,
         Event.findPath env.pathOk, Event.setSubdivisionLength,
         Event.getPathVertices]) ∧
    (hasFind (testsWorkflowTrace env) = true →
      testsWorkflowTrace env =
        [Event.load true, Event.setInstrumentSpace, Event.setScatteringSenses,
         Event.calcConfigSpace true, Event.calcWallContours true,
         Event.calcLineSegments true, Event.calcVoronoi true,
         Event.findPath env.pathOk] ++
        (if env.pathOk then
          [Event.setSubdivisionLength, Event.getPathVertices] else [])) ∧
    (hasFind (fixedKiTrace env) = true →
      fixedKiTrace env =
        loadLoopTrace env ++
        ([Event.setInstrumentSpace, Event.setTasCalculator, Event.startWorkflow,
          Event.calcConfigSpace true, Event.calcWallContours true,
          Event.calcLineSegments true, Event.calcVoronoi true,
          Event.calcWallsIndexTree true, Event.finishWorkflow,
          Event.findPath env.pathOk] ++
         (if env.pathOk then
           [Event.setSubdivisionLength, Event.getPathVertices] else []))) ∧
    (hasFind (scriptTestsTrace env) = true →
      scriptTestsTrace env =
        loadLoopTrace env ++
        ([Event.setInstrumentSpace, Event.setTasCalculator, Event.startWorkflow,
          Event.calcConfigSpace true, Event.calcWallContours true,
          Event.calcLineSegments true, Event.calcVoronoi true,
          Event.calcWallsIndexTree true, Event.finishWorkflow,
          Event.findPath env.pathOk] ++
         (if env.pathOk then
           [Event.setSubdivisionLength, Event.getPathVertices] else []))) := by
  rcases env with ⟨a, b, c, d, e, f, g, h, i⟩
  refine ⟨⟨?_, ?_, ?_, ?_⟩, ?_, ?_, ?_, ?_⟩
  · rw [← strictIncr_iff_chain]; revert a b c d e f g h i; decide
  · rw [← strictIncr_iff_chain]; revert a b c d e f g h i; decide
  · rw [← strictIncr_iff_chain]; revert a b c d e f g h i; decide
  · rw [← strictIncr_iff_chain]; revert a b c d e f g h i; decide
  · revert a b c d e f g h i; decide
  · revert a b c d e f g h i; decide
  · revert a b c d e f g h i; decide
  · revert a b c d e f g h i; decide

/-- C2 witness: at the all-success environment, each script's trace is
exactly its full pipeline in order, ending with the path search and the
post-processing calls. -/
theorem c2_pipeline_order_witness :
    hasFind (testPyTrace envAll) = true ∧
    testPyTrace envAll =
      [Event.load true, Event.setInstrumentSpace, Event.setScatteringSenses,
       Event.calcConfigSpace envAll.configOk, Event.calcWallContours envAll.contoursOk,
       Event.calcLineSegments envAll.segmentsOk, Event.calcVoronoi envAll.voronoiOk,
       Event.findPath envAll.pathOk, Event.setSubdivisionLength,
       Event.getPathVertices] ∧
    hasFind (testsWorkflowTrace envAll) = true ∧
    testsWorkflowTrace envAll =
      [Event.load true, Event.setInstrumentSpace, Event.setScatteringSenses,
       Event.calcConfigSpace true, Event.calcWallContours true,
       Event.calcLineSegments true, Event.calcVoronoi true,
       Event.findPath envAll.pathOk] ++
      (if envAll.pathOk then
        [Event.setSubdivisionLength, Event.getPathVertices] else []) ∧
    hasFind (fixedKiTrace envAll) = true ∧
    fixedKiTrace envAll =
      loadLoopTrace envAll ++
      ([Event.setInstrumentSpace, Event.setTasCalculator, Event.startWorkflow,
        Event.calcConfigSpace true, Event.calcWallContours true,
        Event.calcLineSegments true, Event.calcVoronoi true,
        Event.calcWallsIndexTree true, Event.finishWorkflow,
        Event.findPath envAll.pathOk] ++
       (if envAll.pathOk then
         [Event.setSubdivisionLength, Event.getPathVertices] else [])) ∧
    hasFind (scriptTestsTrace envAll) = true ∧
    scriptTestsTrace envAll =
      loadLoopTrace envAll ++
      ([Event.setInstrumentSpace, Event.setTasCalculator, Event.startWorkflow,
        Event.calcConfigSpace true, Event.calcWallContours true,
        Event.calcLineSegments true, Event.calcVoronoi true,
        Event.calcWallsIndexTree true, Event.finishWorkflow,
        Event.findPath envAll.pathOk] ++
       (if envAll.pathOk then
         [Event.setSubdivisionLength, Event.getPathVertices] else [])) :=
  ⟨by decide, (c2_pipeline_order envAll).2.1 (by decide),
   by decide, (c2_pipeline_order envAll).2.2.1 (by decide),
   by decide, (c2_pipeline_order envAll).2.2.2.1 (by decide),
   by decide, (c2_pipeline_order envAll).2.2.2.2 (by decide)⟩

/-- C9: both scattering-senses arrays handed to
`PathsBuilder.SetScatteringSenses` are created with exactly 3 elements
and have every element set to +1 or -1 before being passed on. -/
theorem c9_senses :
    sensesTestPy = [1, -1, 1] ∧
    sensesTestPy.length = 3 ∧
    (∀ v ∈ sensesTestPy, v = 1 ∨ v = -1) ∧
    sensesWorkflowPy = [1, -1, 1] ∧
    sensesWorkflowPy.length = 3 ∧
    (∀ v ∈ sensesWorkflowPy, v = 1 ∨ v = -1) := by
  decide

/-- C10 counterexample: in script_tests/workflow.py a failed first load
attempt does not exit the script; after a later attempt succeeds the
script proceeds to build, so the parenthetical claim that any load
failure exits before building is false at `envLoad1Fail`. -/
theorem c10_counterexample :
    Event.load false ∈ scriptTestsTrace envLoad1Fail ∧
    Event.calcConfigSpace true ∈ scriptTestsTrace envLoad1Fail ∧
    Event.findPath true ∈ scriptTestsTrace envLoad1Fail := by
  decide

/-- C10 amended: in every script, any `CalculateConfigSpace` call is
preceded in the trace by an `InstrumentSpace.load` call that returned
`ok = true` (building is reached only after a successful load; a failed
individual attempt may be followed by further attempts rather than an
exit). -/
theorem c10_amended (env : Env) :
    loadGuard (testPyTrace env) = true ∧
    loadGuard (testsWorkflowTrace env) = true ∧
    loadGuard (fixedKiTrace env) = true ∧
    loadGuard (scriptTestsTrace env) = true := by
  rcases env with ⟨a, b, c, d, e, f, g, h, i⟩
  revert a b c d e f g h i
  decide

/-- C4 counterexample: the a2 range start is `0 - 4*delta2` in every
script that probes a2, not `-pi - 4*delta2` as claimed (angles are in
units of pi, so the claimed coefficient is `-1 - 4*delta2`), and in
tests/test.py and tests/workflow.py the a4 range is padded with `delta2`
rather than `delta4`. -/
theorem c4_counterexample :
    testPy_a2_begin ≠ -1 - 4 * testPy_a2_delta ∧
    wfPy_a2_begin ≠ -1 - 4 * wfPy_a2_delta ∧
    st_a2_begin ≠ -1 - 4 * st_a2_delta ∧
    testPy_a4_begin ≠ -1 - 4 * testPy_a4_delta ∧
    wfPy_a4_begin ≠ -1 - 4 * wfPy_a4_delta := by
  refine ⟨?_, ?_, ?_, ?_, ?_⟩ <;>
    norm_num [testPy_a2_begin, testPy_a2_delta, testPy_a4_begin, testPy_a4_delta,
      wfPy_a2_begin, wfPy_a2_delta, wfPy_a4_begin, wfPy_a4_delta,
      st_a2_begin, st_a2_delta, anglePadding]

/-- C4 amended: in units of pi, the scripts probe a2 over
`[-4*delta2, 1 + 4*delta2]` with `delta2 = 1/180`; tests/test.py and
tests/workflow.py probe a4 over `[-1 - 4*delta2, 1 + 4*delta2]` (padding
with delta2), script_tests/workflow.py probes a4 over
`[-1 - 4*delta4, 1 + 4*delta4]` with `delta4 = 2/180`, and
tests/workflow_fixed_ki.py probes a6 and a4 over `[-1, 1]` with steps of
`4/180`. -/
theorem c4_amended :
    testPy_a2_begin = -(4 * (1 / 180 : ℚ)) ∧
    testPy_a2_end = 1 + 4 * (1 / 180 : ℚ) ∧
    testPy_a4_begin = -1 - 4 * (1 / 180 : ℚ) ∧
    testPy_a4_end = 1 + 4 * (1 / 180 : ℚ) ∧
    wfPy_a2_begin = -(4 * (1 / 180 : ℚ)) ∧
    wfPy_a2_end = 1 + 4 * (1 / 180 : ℚ) ∧
    wfPy_a4_begin = -1 - 4 * (1 / 180 : ℚ) ∧
    wfPy_a4_end = 1 + 4 * (1 / 180 : ℚ) ∧
    st_a2_begin = -(4 * (1 / 180 : ℚ)) ∧
    st_a2_end = 1 + 4 * (1 / 180 : ℚ) ∧
    st_a4_begin = -1 - 4 * (2 / 180 : ℚ) ∧
    st_a4_end = 1 + 4 * (2 / 180 : ℚ) ∧
    fk_a6_begin = -1 ∧ fk_a6_end = 1 ∧
    fk_a4_begin = -1 ∧ fk_a4_end = 1 ∧
    fk_a6_delta = 4 / 180 ∧ fk_a4_delta = 4 / 180 := by
  norm_num [testPy_a2_begin, testPy_a2_end, testPy_a4_begin, testPy_a4_end,
    testPy_a2_delta, wfPy_a2_begin, wfPy_a2_end, wfPy_a4_begin, wfPy_a4_end,
    wfPy_a2_delta, st_a2_begin, st_a2_end, st_a4_begin, st_a4_end,
    st_a2_delta, st_a4_delta, fk_a6_begin, fk_a6_end, fk_a4_begin, fk_a4_end,
    fk_a6_delta, fk_a4_delta, anglePadding]

end TasPaths
